import Mathlib

/-!
Shallow embedding of `src/crates/lib/kajiya/src/world_renderer.rs` (crate `kajiya`,
module `world_renderer`) and proofs of the spec claims about it.

Modelling conventions:
* Machine integers (`u32`, `u64`, `usize`) are `Nat`, with an explicit `% 2 ^ 32`
  (or `% 2 ^ 64`) exactly where the Rust code performs a wrapping operation or a
  narrowing `as` cast.
* `f32` scalars are modelled as exact rationals `ℚ`.  Every claim proved here is a
  data-flow / copy / indexing property, independent of rounding; the one numeric
  evaluation used in a counterexample (`Mat3::from_quat` on the quaternion
  `(1,0,0,0)`) is exact in `f32` as well.
* GPU-side objects (Vulkan buffers, descriptor sets, acceleration structures) carry
  no data relevant to the claims; they appear only as counts or offset records.
* `HashMap<InstanceHandle, usize>` is modelled as an association list with
  overwrite-on-insert semantics (`alistInsert` / `alistErase` / `alistLookup`).
* Rust panics (`expect`, out-of-bounds indexing) are modelled by `Option`: `none`
  means the call panics.
-/

set_option autoImplicit false

namespace Kajiya

/-- Three-component vector (glam `Vec3`); `f32` scalars modelled as exact rationals. -/
structure Vec3 where
  x : ℚ
  y : ℚ
  z : ℚ
  deriving DecidableEq, Repr

/-- Quaternion (glam `Quat`), components `x y z w`. -/
structure Quat where
  x : ℚ
  y : ℚ
  z : ℚ
  w : ℚ
  deriving DecidableEq, Repr

/-- Column-basis 3x3 matrix (glam `Mat3`). -/
structure Mat3 where
  x_axis : Vec3
  y_axis : Vec3
  z_axis : Vec3
  deriving DecidableEq, Repr

/-- glam `Mat3::identity()`. -/
def Mat3.identity : Mat3 :=
  { x_axis := ⟨1, 0, 0⟩, y_axis := ⟨0, 1, 0⟩, z_axis := ⟨0, 0, 1⟩ }

/-- glam `Mat3::from_quat(rotation)`: the standard polynomial quaternion-to-matrix
conversion (no square roots), exact over `ℚ`. -/
def Mat3.from_quat (q : Quat) : Mat3 :=
  let x2 := q.x + q.x
  let y2 := q.y + q.y
  let z2 := q.z + q.z
  let xx := q.x * x2
  let xy := q.x * y2
  let xz := q.x * z2
  let yy := q.y * y2
  let yz := q.y * z2
  let zz := q.z * z2
  let wx := q.w * x2
  let wy := q.w * y2
  let wz := q.w * z2
  { x_axis := ⟨1 - (yy + zz), xy + wz, xz - wy⟩
    y_axis := ⟨xy - wz, 1 - (xx + zz), yz + wx⟩
    z_axis := ⟨xz + wy, yz - wx, 1 - (xx + yy)⟩ }

/-- Source line 62: `pub struct MeshHandle(pub usize);` (`val` is the `.0` field). -/
structure MeshHandle where
  val : Nat
  deriving DecidableEq, Repr

/-- Source line 65: `pub struct InstanceHandle(pub usize);`. -/
structure InstanceHandle where
  val : Nat
  deriving DecidableEq, Repr

/-- Source line 67: `const MAX_GPU_MESHES: usize = 1024;`. -/
def MAX_GPU_MESHES : Nat := 1024

/-- Source line 68: `const VERTEX_BUFFER_CAPACITY: usize = 1024 * 1024 * 512;`. -/
def VERTEX_BUFFER_CAPACITY : Nat := 1024 * 1024 * 512

/-- Modulus of the `u32` type. -/
def U32_MOD : Nat := 2 ^ 32

/-- Modulus of the `u64` type. -/
def U64_MOD : Nat := 2 ^ 64

/-- Source lines 71-74: `InstanceDynamicParameters { emissive_multiplier: f32 }`. -/
structure InstanceDynamicParameters where
  emissive_multiplier : ℚ
  deriving DecidableEq, Repr

/-- Source lines 76-82: `impl Default for InstanceDynamicParameters` sets
`emissive_multiplier: 1.0`. -/
def InstanceDynamicParameters.default : InstanceDynamicParameters :=
  { emissive_multiplier := 1 }

/-- Source lines 84-92: `pub struct MeshInstance`. -/
structure MeshInstance where
  rotation : Mat3
  position : Vec3
  prev_rotation : Mat3
  prev_position : Vec3
  mesh : MeshHandle
  dynamic_parameters : InstanceDynamicParameters
  deriving DecidableEq, Repr

/-- Per-mesh metadata (`UploadedTriMesh`, used at source lines 505-508; its fields are
read off the push at those lines). -/
structure UploadedTriMesh where
  index_buffer_offset : Nat
  index_count : Nat
  deriving DecidableEq, Repr

/-- Source lines 48-59: `struct GpuMesh` — the seven byte offsets written into the
GPU-mirrored mesh array (all `u32`). -/
structure GpuMesh where
  vertex_core_offset : Nat
  vertex_uv_offset : Nat
  vertex_mat_offset : Nat
  vertex_aux_offset : Nat
  vertex_tangent_offset : Nat
  mat_data_offset : Nat
  index_offset : Nat
  deriving DecidableEq, Repr

/-- Lookup in the association-list model of `HashMap`: first entry with the given
key wins. -/
def alistLookup {α β : Type} [DecidableEq α] (m : List (α × β)) (k : α) : Option β :=
  match m with
  | [] => none
  | (k0, v0) :: rest => if k0 = k then some v0 else alistLookup rest k

/-- Insert with overwrite (`HashMap::insert` semantics). -/
def alistInsert {α β : Type} [DecidableEq α] (m : List (α × β)) (k : α) (v : β) :
    List (α × β) :=
  (k, v) :: m.filter (fun p => decide (p.1 ≠ k))

/-- Key removal (`HashMap::remove` semantics, the removed value being returned
separately via `alistLookup`). -/
def alistErase {α β : Type} [DecidableEq α] (m : List (α × β)) (k : α) : List (α × β) :=
  m.filter (fun p => decide (p.1 ≠ k))

/-- Rust `Vec::swap_remove(i)` on lists: overwrite slot `i` with the last element and
drop the last slot.  The Rust version panics when `i` is out of bounds; every call
site in the model is guarded so that `i < l.length`. -/
def swapRemove {α : Type} (l : List α) (i : Nat) : List α :=
  match l.getLast? with
  | none => l
  | some lst => (l.set i lst).dropLast

/-- Replace element `i` by `f` applied to it (in-place slot mutation of a `Vec`). -/
def listModify {α : Type} (l : List α) (i : Nat) (f : α → α) : List α :=
  match l[i]? with
  | none => l
  | some a => l.set i (f a)

/-- The fueled digit loop of `radical_inverse` (source lines 753-766).  The float
step `n = (n as f32 * inv_base) as u32` truncates towards zero, i.e. computes
`n / base` exactly for the bases (2 and 3) and arguments (at most 16) used by the
renderer; fuel `n` dominates the iteration count. -/
def radicalInverseAux (fuel n base : Nat) (inv_base inv_bi : ℚ) : ℚ :=
  match fuel with
  | 0 => 0
  | fuel' + 1 =>
    if n = 0 then 0
    else ((n % base : Nat) : ℚ) * inv_bi +
      radicalInverseAux fuel' (n / base) base inv_base (inv_bi * inv_base)

/-- Source lines 753-766: `fn radical_inverse(n, base) -> f32`, modelled over `ℚ`. -/
def radical_inverse (n base : Nat) : ℚ :=
  radicalInverseAux n n base (1 / (base : ℚ)) (1 / (base : ℚ))

/-- Source lines 255-262: the 16-entry jitter sequence built in `new_empty`. -/
def default_supersample_offsets : List (ℚ × ℚ) :=
  (List.range 16).map (fun i =>
    (radical_inverse (i % 16 + 1) 2 - 1 / 2, radical_inverse (i % 16 + 1) 3 - 1 / 2))

/-- The state of `WorldRenderer` (source lines 100-152) restricted to the fields the
claims are about.  Purely GPU-side handles (Vulkan device, descriptor sets, render
passes, buffers, BLAS/TLAS objects, camera history, sub-renderers) carry no data
relevant to the claims; the BLAS vector `mesh_blas` is modelled by its length (one
entry per registered mesh), and the mapped GPU mesh array `mesh_buffer` by the list
of `GpuMesh` records written so far (slot = registration order). -/
structure WorldRenderer where
  meshes : List UploadedTriMesh
  instances : List MeshInstance
  instance_handles : List InstanceHandle
  instance_handle_to_index : List (InstanceHandle × Nat)
  gpu_meshes : List GpuMesh
  mesh_blas : Nat
  vertex_buffer_written : Nat
  next_bindless_image_id : Nat
  next_instance_handle : Nat
  frame_idx : Nat
  supersample_offsets : List (ℚ × ℚ)
  deriving Repr

/-- Source lines 192-315: `WorldRenderer::new_empty` — empty tables, zeroed counters,
the 16-entry jitter sequence. -/
def WorldRenderer.new_empty : WorldRenderer :=
  { meshes := []
    instances := []
    instance_handles := []
    instance_handle_to_index := []
    gpu_meshes := []
    mesh_blas := 0
    vertex_buffer_written := 0
    next_bindless_image_id := 0
    next_instance_handle := 0
    frame_idx := 0
    supersample_offsets := default_supersample_offsets }

/-- The `MeshInstance` literal pushed by `add_instance` (source lines 527-534).
Note `prev_rotation` is `Mat3::identity()`, while `prev_position` is the given
position. -/
def mkMeshInstance (mesh : MeshHandle) (position : Vec3) (rotation : Quat) : MeshInstance :=
  { rotation := Mat3.from_quat rotation
    position := position
    prev_rotation := Mat3.identity
    prev_position := position
    mesh := mesh
    dynamic_parameters := InstanceDynamicParameters.default }

/-- Source lines 515-542: `add_instance`.  Mints the next handle, pushes the instance
and the handle, and records handle → index.  There is no validation of `mesh`. -/
def WorldRenderer.add_instance (s : WorldRenderer) (mesh : MeshHandle) (position : Vec3)
    (rotation : Quat) : InstanceHandle × WorldRenderer :=
  let handle : InstanceHandle := ⟨s.next_instance_handle⟩
  let index := s.instances.length
  (handle,
    { s with
      next_instance_handle := s.next_instance_handle + 1
      instances := s.instances ++ [mkMeshInstance mesh position rotation]
      instance_handles := s.instance_handles ++ [handle]
      instance_handle_to_index := alistInsert s.instance_handle_to_index handle index })

/-- The map repair of source lines 552-556: `if let Some(new_handle) =
self.instance_handles.get(index)` re-point the relocated handle at `index`. -/
def repairedMap (m : List (InstanceHandle × Nat)) (nh : Option InstanceHandle)
    (index : Nat) : List (InstanceHandle × Nat) :=
  match nh with
  | some new_handle => alistInsert m new_handle index
  | none => m

/-- Source lines 544-557: `remove_instance`.  `none` models the
`.expect("no such instance")` panic on an unknown handle. -/
def WorldRenderer.remove_instance (s : WorldRenderer) (inst : InstanceHandle) :
    Option WorldRenderer :=
  match alistLookup s.instance_handle_to_index inst with
  | none => none
  | some index =>
    some { s with
           instances := swapRemove s.instances index
           instance_handles := swapRemove s.instance_handles index
           instance_handle_to_index :=
             repairedMap (alistErase s.instance_handle_to_index inst)
               ((swapRemove s.instance_handles index)[index]?) index }

/-- Source lines 559-563: `set_instance_transform`.  `none` models the panic of
`self.instance_handle_to_index[&inst]` on an unknown handle; otherwise only
`position` and `rotation` of the addressed slot are written. -/
def WorldRenderer.set_instance_transform (s : WorldRenderer) (inst : InstanceHandle)
    (position : Vec3) (rotation : Quat) : Option WorldRenderer :=
  match alistLookup s.instance_handle_to_index inst with
  | none => none
  | some index =>
    some { s with
           instances := listModify s.instances index (fun m =>
             { m with position := position, rotation := Mat3.from_quat rotation }) }

/-- Source lines 650-655: `store_prev_mesh_transforms` — copy every instance's
current transform into its previous-transform fields. -/
def WorldRenderer.store_prev_mesh_transforms (s : WorldRenderer) : WorldRenderer :=
  { s with
    instances := s.instances.map (fun inst =>
      { inst with prev_position := inst.position, prev_rotation := inst.rotation }) }

/-- Source lines 747-750: `retire_frame` — `frame_idx.overflowing_add(1).0` (wrapping
`u32` increment) followed by `store_prev_mesh_transforms`. -/
def WorldRenderer.retire_frame (s : WorldRenderer) : WorldRenderer :=
  WorldRenderer.store_prev_mesh_transforms { s with frame_idx := (s.frame_idx + 1) % U32_MOD }

/-- Source lines 580-587 / 612-620: the per-instance tuple snapshotted for the TLAS
build (`RayTracingInstanceDesc`); the BLAS reference is modelled by its index in
`mesh_blas`. -/
structure RayTracingInstanceDesc where
  blas : Nat
  position : Vec3
  rotation : Mat3
  mesh_index : Nat
  deriving DecidableEq, Repr

/-- Per-instance snapshot loop shared by the TLAS build paths: `none` as soon as an
instance references a BLAS slot that does not exist. -/
def tlasDescList (blasCount : Nat) : List MeshInstance → Option (List RayTracingInstanceDesc)
  | [] => some []
  | inst :: rest =>
    if inst.mesh.val < blasCount then
      match tlasDescList blasCount rest with
      | none => none
      | some ds =>
        some ({ blas := inst.mesh.val
                position := inst.position
                rotation := inst.rotation
                mesh_index := inst.mesh.val % U32_MOD } :: ds)
    else none

/-- The instance-list snapshot taken by `build_ray_tracing_top_level_acceleration`
(source lines 579-588) and `prepare_top_level_acceleration` (lines 612-621):
`self.mesh_blas[inst.mesh.0]` panics (`none`) when an instance references an
unregistered mesh; `inst.mesh.0 as u32` narrows. -/
def WorldRenderer.tlas_instance_descs (s : WorldRenderer) :
    Option (List RayTracingInstanceDesc) :=
  tlasDescList s.mesh_blas s.instances

/-- Source lines 673-686, `RenderMode::Standard` branch of `prepare_render_graph`:
the jitter offset selected for the frame is
`supersample_offsets[frame_idx as usize % supersample_offsets.len()]`.
Indexing an empty sequence would panic in Rust; `new_empty` installs 16 entries. -/
def WorldRenderer.current_supersample_offset (s : WorldRenderer) : ℚ × ℚ :=
  s.supersample_offsets.getD (s.frame_idx % s.supersample_offsets.length) (0, 0)

/-- Rust `Vec::dedup`: removal of consecutive duplicates (source line 392; applied
after sorting, so all duplicates are consecutive there). -/
def dedupAdj : List Nat → List Nat
  | [] => []
  | [a] => [a]
  | a :: b :: rest => if a = b then dedupAdj (b :: rest) else a :: dedupAdj (b :: rest)

/-- Insert into a sorted list (auxiliary for `sortNat`). -/
def insertSorted (a : Nat) : List Nat → List Nat
  | [] => [a]
  | b :: rest => if a ≤ b then a :: b :: rest else b :: insertSorted a rest

/-- Rust `Vec::sort` on `Nat` keys, modelled by insertion sort: on a total order a
sort is extensionally unique (the sorted permutation of its input), so any correct
sorting algorithm is the same function. -/
def sortNat : List Nat → List Nat
  | [] => []
  | a :: rest => insertSorted a (sortNat rest)

/-- Source lines 390-392: `unique_images` — the mesh's texture-asset identity list,
sorted then consecutively deduplicated.  `AssetRef` identities are modelled as `Nat`
(content hashes ordered by their derived `Ord`). -/
def uniqueImages (maps : List Nat) : List Nat :=
  dedupAdj (sortNat maps)

/-- Sequential bindless-handle assignment: the lazy map at source line 409 runs
`add_image` → `add_bindless_image_view` (lines 340-364) once per unique image, in
list order, so identity `k` positions from the front receives
`BindlessImageHandle((next_bindless_image_id + k) as u32)`.  Returns the
identity → handle pairs (zip of line 411-412) and the advanced
`next_bindless_image_id`. -/
def assignHandles (next : Nat) : List Nat → List (Nat × Nat) × Nat
  | [] => ([], next)
  | id :: rest =>
    let r := assignHandles (next + 1) rest
    ((id, next % U32_MOD) :: r.1, r.2)

/-- Source lines 411-412: the `material_map_to_image` map built during one
`add_mesh` call, keyed by texture-asset identity. -/
def material_map_to_image (next : Nat) (maps : List Nat) : List (Nat × Nat) :=
  (assignHandles next (uniqueImages maps)).1

/-- Source lines 416-421: `mesh_map_gpu_ids` — the per-slot bindless handle for each
entry of `mesh.maps`, looked up through `material_map_to_image` (the `HashMap`
indexing at line 420 cannot miss, since every entry of `maps` is in
`unique_images`; `getD 0` is never the fallback there). -/
def mesh_map_gpu_ids (next : Nat) (maps : List Nat) : List Nat :=
  maps.map (fun m => (alistLookup (material_map_to_image next maps) m).getD 0)

/-- Align `x` up to a multiple of `a` (`a = 0` treated as no alignment). -/
def alignUp (x a : Nat) : Nat :=
  if a = 0 then x else (x + a - 1) / a * a

/-- Modelled from the spec: `crate::buffer_builder::BufferBuilder` is not under
`src/`.  Spec section 4.1: an append-only arena — `append` accumulates a running
byte offset, aligning each block to the natural alignment of its element type and
returning the block's byte offset; `current_offset` returns total bytes written;
`upload` copies the staged bytes to the destination at a base offset and is fatal
if the destination capacity is exceeded. -/
structure BufferBuilder where
  bytes : Nat
  deriving Repr

/-- Append a block of `size` bytes whose element type has alignment `align`;
returns the offset of the block within the staged region. -/
def BufferBuilder.append (b : BufferBuilder) (align size : Nat) : Nat × BufferBuilder :=
  let offset := alignUp b.bytes align
  (offset, ⟨offset + size⟩)

/-- Total staged bytes. -/
def BufferBuilder.current_offset (b : BufferBuilder) : Nat := b.bytes

/-- The slice of `PackedTriMesh::Flat` (crate `kajiya_asset`, not under `src/`) that
`add_mesh` reads: the `u32` index list, the texture-asset identity list `maps`, and
the five remaining vertex streams plus the rewritten material array abstracted by
byte size and natural element alignment (their element types live in the asset
crate; every claim about `add_mesh` is independent of the stream contents). -/
structure MeshAsset where
  indices : List Nat
  maps : List Nat
  verts_size : Nat
  verts_align : Nat
  uvs_size : Nat
  uvs_align : Nat
  material_ids_size : Nat
  material_ids_align : Nat
  colors_size : Nat
  colors_align : Nat
  tangents_size : Nat
  tangents_align : Nat
  materials_size : Nat
  materials_align : Nat
  deriving Repr

/-- Source lines 432-447: the seven `BufferBuilder` appends of `add_mesh`, in
order — index stream (4-byte `u32` elements), vertex core stream, UV stream,
material-id stream, auxiliary/color stream, tangent stream, rewritten material
array.  Returns the seven raw (pre-bias) offsets and `current_offset()` after all
appends (`total_buffer_size`). -/
def packMesh (mesh : MeshAsset) : (Nat × Nat × Nat × Nat × Nat × Nat × Nat) × Nat :=
  let r1 := BufferBuilder.append ⟨0⟩ 4 (4 * mesh.indices.length)
  let r2 := r1.2.append mesh.verts_align mesh.verts_size
  let r3 := r2.2.append mesh.uvs_align mesh.uvs_size
  let r4 := r3.2.append mesh.material_ids_align mesh.material_ids_size
  let r5 := r4.2.append mesh.colors_align mesh.colors_size
  let r6 := r5.2.append mesh.tangents_align mesh.tangents_size
  let r7 := r6.2.append mesh.materials_align mesh.materials_size
  ((r1.1, r2.1, r3.1, r4.1, r5.1, r6.1, r7.1), r7.2.current_offset)

/-- Source lines 388-513: `add_mesh`.  Returns the minted `MeshHandle`, the
`GpuMesh` record written at slot `mesh_idx` (lines 495-503), and the new state.
`none` models the fatal cases: the slot write `mesh_buffer_dst[mesh_idx]` with
`mesh_idx ≥ MAX_GPU_MESHES` (slice-index panic, line 495), the empty-mesh
`.expect("mesh must not be empty")` (line 487), and — modelled from the spec,
section 4.1 — `BufferBuilder::upload` exceeding `VERTEX_BUFFER_CAPACITY`.
Each packed offset is `builder_offset as u32 + vertex_data_offset` with
`vertex_data_offset = vertex_buffer_written as u32` (lines 430-445); the running
counter advances by `total_buffer_size` (line 454). -/
def WorldRenderer.add_mesh (s : WorldRenderer) (mesh : MeshAsset) :
    Option (MeshHandle × GpuMesh × WorldRenderer) :=
  let mesh_idx := s.meshes.length
  if MAX_GPU_MESHES ≤ mesh_idx then none
  else if mesh.indices = [] then none
  else
    let assigned := assignHandles s.next_bindless_image_id (uniqueImages mesh.maps)
    let vertex_data_offset := s.vertex_buffer_written % U32_MOD
    let packed := packMesh mesh
    let total_buffer_size := packed.2
    if VERTEX_BUFFER_CAPACITY < s.vertex_buffer_written + total_buffer_size then none
    else
      let vertex_index_offset := (packed.1.1 % U32_MOD + vertex_data_offset) % U32_MOD
      let record : GpuMesh :=
        { vertex_core_offset := (packed.1.2.1 % U32_MOD + vertex_data_offset) % U32_MOD
          vertex_uv_offset := (packed.1.2.2.1 % U32_MOD + vertex_data_offset) % U32_MOD
          vertex_mat_offset := (packed.1.2.2.2.1 % U32_MOD + vertex_data_offset) % U32_MOD
          vertex_aux_offset := (packed.1.2.2.2.2.1 % U32_MOD + vertex_data_offset) % U32_MOD
          vertex_tangent_offset := (packed.1.2.2.2.2.2.1 % U32_MOD + vertex_data_offset) % U32_MOD
          mat_data_offset := (packed.1.2.2.2.2.2.2 % U32_MOD + vertex_data_offset) % U32_MOD
          index_offset := vertex_index_offset }
      some (⟨mesh_idx⟩, record,
        { s with
          meshes := s.meshes ++ [{ index_buffer_offset := vertex_index_offset
                                   index_count := mesh.indices.length % U32_MOD }]
          gpu_meshes := s.gpu_meshes ++ [record]
          mesh_blas := s.mesh_blas + 1
          vertex_buffer_written := (s.vertex_buffer_written + total_buffer_size) % U64_MOD
          next_bindless_image_id := assigned.2 })

/-- Register a list of meshes in sequence. -/
def addMeshSeq (s : WorldRenderer) : List MeshAsset → Option WorldRenderer
  | [] => some s
  | m :: rest =>
    match s.add_mesh m with
    | none => none
    | some r => addMeshSeq r.2.2 rest

/-- The seven (byte offset, byte size) spans a registered mesh occupies in the
shared vertex/index/material buffer, read off its `GpuMesh` record and the stream
sizes of the asset. -/
def recordSpans (mesh : MeshAsset) (rec : GpuMesh) : List (Nat × Nat) :=
  [(rec.index_offset, 4 * mesh.indices.length),
   (rec.vertex_core_offset, mesh.verts_size),
   (rec.vertex_uv_offset, mesh.uvs_size),
   (rec.vertex_mat_offset, mesh.material_ids_size),
   (rec.vertex_aux_offset, mesh.colors_size),
   (rec.vertex_tangent_offset, mesh.tangents_size),
   (rec.mat_data_offset, mesh.materials_size)]

/-- One instance-table operation (for sequences of `add_instance` /
`remove_instance` calls). -/
inductive SceneOp where
  | add (mesh : MeshHandle) (position : Vec3) (rotation : Quat)
  | remove (inst : InstanceHandle)

/-- Apply one operation; `none` propagates the panic of `remove_instance` on an
unknown handle. -/
def applyOp (s : WorldRenderer) : SceneOp → Option WorldRenderer
  | .add m p r => some (s.add_instance m p r).2
  | .remove h => s.remove_instance h

/-- Run a call sequence left to right. -/
def runOps (s : WorldRenderer) : List SceneOp → Option WorldRenderer
  | [] => some s
  | op :: rest =>
    match applyOp s op with
    | none => none
    | some s2 => runOps s2 rest

/-- Claim-side abstract specification of the instance table, following the spec's
words (section 8, handle stability): a pure map from handle to the instance data
recorded at creation, with fresh handles minted in order; removal deletes the
handle's entry. -/
structure SpecTable where
  entries : List (InstanceHandle × MeshInstance)
  next : Nat

/-- Abstract effect of one operation on the specification table. -/
def specApply (t : SpecTable) : SceneOp → Option SpecTable
  | .add m p r =>
    some ⟨alistInsert t.entries ⟨t.next⟩ (mkMeshInstance m p r), t.next + 1⟩
  | .remove h =>
    match alistLookup t.entries h with
    | none => none
    | some _ => some ⟨alistErase t.entries h, t.next⟩

/-- Run a call sequence on the specification table. -/
def specRun (t : SpecTable) : List SceneOp → Option SpecTable
  | [] => some t
  | op :: rest =>
    match specApply t op with
    | none => none
    | some t2 => specRun t2 rest

/-- Placeholder instance used as the irrelevant `getLastD` fallback. -/
def dummyInstance : MeshInstance := mkMeshInstance ⟨0⟩ ⟨0, 0, 0⟩ ⟨0, 0, 0, 1⟩

/-- Concrete state with one instance, used by several witnesses. -/
def witnessState1 : WorldRenderer :=
  (WorldRenderer.new_empty.add_instance ⟨0⟩ ⟨1, 2, 3⟩ ⟨0, 0, 0, 1⟩).2

/-- The state after updating the single instance's transform. -/
def witnessState2 : WorldRenderer :=
  (witnessState1.set_instance_transform ⟨0⟩ ⟨4, 5, 6⟩ ⟨0, 0, 0, 1⟩).getD witnessState1

/-- Well-formedness of the instance table: both SoA arrays have the same length
(the `assert_eq` at source line 537) and the handle → index map is exactly the
graph of handle positions in `instance_handles` — which makes it the single source
of truth for an instance's storage slot. -/
def WorldRenderer.WellFormed (s : WorldRenderer) : Prop :=
  s.instances.length = s.instance_handles.length ∧
  ∀ h i, alistLookup s.instance_handle_to_index h = some i ↔ s.instance_handles[i]? = some h

/-- Refinement relation between the concrete renderer state and the abstract
specification table: the table is well-formed, every mapped handle resolves to the
instance data the specification records for it, the specification and the map have
the same live handles, and all live handles are older than `next_instance_handle`. -/
def Abs (s : WorldRenderer) (t : SpecTable) : Prop :=
  s.WellFormed ∧
  (∀ h i, alistLookup s.instance_handle_to_index h = some i →
    ∃ inst, s.instances[i]? = some inst ∧ alistLookup t.entries h = some inst) ∧
  (∀ h, (alistLookup t.entries h).isSome →
    (alistLookup s.instance_handle_to_index h).isSome) ∧
  (∀ h i, alistLookup s.instance_handle_to_index h = some i →
    h.val < s.next_instance_handle) ∧
  t.next = s.next_instance_handle

/-- Concrete op sequence: add two instances, remove the first. -/
def c3ops : List SceneOp :=
  [SceneOp.add ⟨0⟩ ⟨1, 2, 3⟩ ⟨0, 0, 0, 1⟩,
   SceneOp.add ⟨0⟩ ⟨4, 5, 6⟩ ⟨0, 0, 0, 1⟩,
   SceneOp.remove ⟨0⟩]

/-- The state reached by `c3ops`. -/
def c3s : WorldRenderer := (runOps WorldRenderer.new_empty c3ops).getD WorldRenderer.new_empty

/-- The specification table reached by `c3ops`. -/
def c3t : SpecTable := (specRun ⟨[], 0⟩ c3ops).getD ⟨[], 0⟩

/-- Two-instance concrete state for the C4 witness. -/
def c4s : WorldRenderer := (witnessState1.add_instance ⟨0⟩ ⟨4, 5, 6⟩ ⟨0, 0, 0, 1⟩).2

/-- The C4 witness state after removing the instance at slot 0. -/
def c4r : WorldRenderer := (c4s.remove_instance ⟨0⟩).getD c4s

/-- Reference chain for the builder bounds: fold `BufferBuilder.append` over a list
of (alignment, size) stream descriptors, collecting each stream's (offset, size). -/
def buildChain (b : Nat) : List (Nat × Nat) → List (Nat × Nat) × Nat
  | [] => ([], b)
  | (al, sz) :: rest =>
    let o := alignUp b al
    let r := buildChain (o + sz) rest
    ((o, sz) :: r.1, r.2)

/-- The seven (alignment, size) stream descriptors of a mesh, in pack order. -/
def meshStreams (mesh : MeshAsset) : List (Nat × Nat) :=
  [(4, 4 * mesh.indices.length),
   (mesh.verts_align, mesh.verts_size),
   (mesh.uvs_align, mesh.uvs_size),
   (mesh.material_ids_align, mesh.material_ids_size),
   (mesh.colors_align, mesh.colors_size),
   (mesh.tangents_align, mesh.tangents_size),
   (mesh.materials_align, mesh.materials_size)]

/-- Concrete triangle mesh (streams by byte size/alignment) for the C7 witness. -/
def c7A : MeshAsset :=
  { indices := [0, 1, 2], maps := []
    verts_size := 24, verts_align := 4
    uvs_size := 8, uvs_align := 4
    material_ids_size := 4, material_ids_align := 4
    colors_size := 12, colors_align := 4
    tangents_size := 12, tangents_align := 4
    materials_size := 32, materials_align := 8 }

/-- Second concrete mesh for the C7 witness. -/
def c7B : MeshAsset :=
  { indices := [0, 1, 2, 0, 2, 1], maps := []
    verts_size := 16, verts_align := 8
    uvs_size := 8, uvs_align := 4
    material_ids_size := 4, material_ids_align := 4
    colors_size := 8, colors_align := 4
    tangents_size := 8, tangents_align := 4
    materials_size := 16, materials_align := 8 }

/-- All-zero record used as an irrelevant `getD` fallback. -/
def gpuMeshZero : GpuMesh := ⟨0, 0, 0, 0, 0, 0, 0⟩

/-- Result of registering `c7A` into the fresh renderer. -/
def c7res1 : Option (MeshHandle × GpuMesh × WorldRenderer) :=
  WorldRenderer.new_empty.add_mesh c7A

/-- The record written for `c7A`. -/
def c7rec1 : GpuMesh := (c7res1.map (fun r => r.2.1)).getD gpuMeshZero

/-- The state after registering `c7A`. -/
def c7s1 : WorldRenderer := (c7res1.map (fun r => r.2.2)).getD WorldRenderer.new_empty

/-- Result of registering `c7B` after `c7A`. -/
def c7res2 : Option (MeshHandle × GpuMesh × WorldRenderer) := c7s1.add_mesh c7B

/-- The record written for `c7B`. -/
def c7rec2 : GpuMesh := (c7res2.map (fun r => r.2.1)).getD gpuMeshZero

/-- The state after registering `c7B`. -/
def c7s2 : WorldRenderer := (c7res2.map (fun r => r.2.2)).getD WorldRenderer.new_empty

/-! ### Helper lemmas: association lists, `swapRemove`, `listModify` -/

theorem repairedMap_some (m : List (InstanceHandle × Nat)) (nh : InstanceHandle)
    (index : Nat) : repairedMap m (some nh) index = alistInsert m nh index := rfl

theorem repairedMap_none (m : List (InstanceHandle × Nat)) (index : Nat) :
    repairedMap m none index = m := rfl

theorem opt_eq_some_getD {α : Type} (o : Option α) (d : α) (h : o.isSome = true) :
    o = some (o.getD d) := by
  cases o with
  | none => simp at h
  | some a => rfl

section Alist

variable {α β : Type} [DecidableEq α]

theorem alistLookup_cons (k0 : α) (v0 : β) (rest : List (α × β)) (k : α) :
    alistLookup ((k0, v0) :: rest) k = if k0 = k then some v0 else alistLookup rest k := rfl

theorem alistLookup_filter_ne (m : List (α × β)) (k k' : α) (hk : k' ≠ k) :
    alistLookup (m.filter (fun p => decide (p.1 ≠ k))) k' = alistLookup m k' := by
  induction m with
  | nil => rfl
  | cons p rest ih =>
    obtain ⟨k0, v0⟩ := p
    rw [List.filter_cons]
    by_cases hp : k0 = k
    · rw [if_neg (by simp [hp]), alistLookup_cons,
        if_neg (by rw [hp]; exact fun h => hk h.symm)]
      exact ih
    · rw [if_pos (by simp [hp]), alistLookup_cons, alistLookup_cons, ih]

theorem alistLookup_insert_self (m : List (α × β)) (k : α) (v : β) :
    alistLookup (alistInsert m k v) k = some v := by
  simp [alistInsert, alistLookup_cons]

theorem alistLookup_insert_ne (m : List (α × β)) (k : α) (v : β) (k' : α) (hk : k' ≠ k) :
    alistLookup (alistInsert m k v) k' = alistLookup m k' := by
  rw [alistInsert, alistLookup_cons, if_neg (fun h => hk h.symm)]
  exact alistLookup_filter_ne m k k' hk

theorem alistLookup_erase_self (m : List (α × β)) (k : α) :
    alistLookup (alistErase m k) k = none := by
  induction m with
  | nil => rfl
  | cons p rest ih =>
    obtain ⟨k0, v0⟩ := p
    by_cases hp : k0 = k
    · simpa [alistErase, List.filter_cons, hp] using ih
    · simpa [alistErase, List.filter_cons, hp, alistLookup_cons] using ih

theorem alistLookup_erase_ne (m : List (α × β)) (k k' : α) (hk : k' ≠ k) :
    alistLookup (alistErase m k) k' = alistLookup m k' :=
  alistLookup_filter_ne m k k' hk

end Alist

theorem length_swapRemove {α : Type} (l : List α) (lst : α) (i : Nat)
    (hlast : l.getLast? = some lst) :
    (swapRemove l i).length = l.length - 1 := by
  rw [swapRemove, hlast]
  simp

theorem getElem?_swapRemove {α : Type} (l : List α) (lst : α) (i j : Nat)
    (hlast : l.getLast? = some lst) :
    (swapRemove l i)[j]? =
      if j < l.length - 1 then (if j = i then some lst else l[j]?) else none := by
  rw [swapRemove, hlast]
  rw [List.getElem?_dropLast, List.length_set, List.getElem?_set]
  by_cases hj : j < l.length - 1
  · rw [if_pos hj, if_pos hj]
    by_cases hij : i = j
    · subst hij
      rw [if_pos rfl, if_pos rfl, if_pos (by omega)]
    · rw [if_neg hij, if_neg (fun h => hij h.symm)]
  · rw [if_neg hj, if_neg hj]

theorem length_listModify {α : Type} (l : List α) (i : Nat) (f : α → α) :
    (listModify l i f).length = l.length := by
  rw [listModify]
  cases h : l[i]? with
  | none => rfl
  | some a => simp

theorem getElem?_listModify_self {α : Type} (l : List α) (i : Nat) (f : α → α) :
    (listModify l i f)[i]? = (l[i]?).map f := by
  rw [listModify]
  cases h : l[i]? with
  | none => simp [h]
  | some a =>
    have hi : i < l.length := by
      by_contra hn
      rw [List.getElem?_eq_none (by omega)] at h
      exact Option.noConfusion h
    simp [List.getElem?_set, hi, h]

theorem getElem?_listModify_ne {α : Type} (l : List α) (i j : Nat) (f : α → α)
    (hij : j ≠ i) :
    (listModify l i f)[j]? = l[j]? := by
  rw [listModify]
  cases h : l[i]? with
  | none => rfl
  | some a =>
    rw [List.getElem?_set, if_neg (fun h2 => hij h2.symm)]

theorem tlasDescList_append_unregistered (blasCount : Nat) (l : List MeshInstance)
    (inst : MeshInstance) (hinst : blasCount ≤ inst.mesh.val) :
    tlasDescList blasCount (l ++ [inst]) = none := by
  induction l with
  | nil => simp [tlasDescList, Nat.not_lt.2 hinst]
  | cons a rest ih =>
    rw [List.cons_append, tlasDescList]
    by_cases ha : a.mesh.val < blasCount
    · rw [if_pos ha, ih]
    · rw [if_neg ha]

/-! ### Claims C1, C2, C10: add_instance -/

/-- Counterexample to C1: adding an instance with rotation quaternion `(1, 0, 0, 0)`
(a half-turn about the x axis) leaves `prev_rotation` equal to the identity matrix
(source line 530), which differs from the stored current rotation
`Mat3::from_quat(rotation)`; so the previous-frame transform does not equal the
current transform immediately after `add_instance`. -/
theorem add_instance_c1_counterexample :
    ((WorldRenderer.new_empty.add_instance ⟨0⟩ ⟨0, 0, 0⟩ ⟨1, 0, 0, 0⟩).2.instances.getLastD
        dummyInstance).prev_rotation ≠
      ((WorldRenderer.new_empty.add_instance ⟨0⟩ ⟨0, 0, 0⟩ ⟨1, 0, 0, 0⟩).2.instances.getLastD
        dummyInstance).rotation := by
  have hL : ((WorldRenderer.new_empty.add_instance ⟨0⟩ ⟨0, 0, 0⟩ ⟨1, 0, 0, 0⟩).2.instances.getLastD
      dummyInstance).prev_rotation = Mat3.identity := rfl
  have hR : ((WorldRenderer.new_empty.add_instance ⟨0⟩ ⟨0, 0, 0⟩ ⟨1, 0, 0, 0⟩).2.instances.getLastD
      dummyInstance).rotation = Mat3.from_quat ⟨1, 0, 0, 0⟩ := rfl
  rw [hL, hR]
  intro h
  have h2 := congrArg (fun m => m.y_axis.y) h
  simp only [Mat3.from_quat, Mat3.identity] at h2
  norm_num at h2

/-- C1 (amended): immediately after `add_instance(mesh, position, rotation)`, the
new instance's previous position equals its current position (the given position),
but its previous rotation is initialized to the identity matrix, not to the given
rotation; the previous rotation equals the current one only when
`Mat3::from_quat(rotation)` happens to be the identity. -/
theorem add_instance_prev_transform (s : WorldRenderer) (mesh : MeshHandle)
    (position : Vec3) (rotation : Quat) :
    ∃ inst : MeshInstance,
      (s.add_instance mesh position rotation).2.instances.getLast? = some inst ∧
      inst.position = position ∧
      inst.rotation = Mat3.from_quat rotation ∧
      inst.prev_position = position ∧
      inst.prev_rotation = Mat3.identity := by
  refine ⟨mkMeshInstance mesh position rotation, ?_, rfl, rfl, rfl, rfl⟩
  simp [WorldRenderer.add_instance]

/-- C10: every instance created by `add_instance` carries
`InstanceDynamicParameters::default()`, whose emissive multiplier is exactly `1.0`;
the parameters are not an input of `add_instance` (its whole input is the mesh
handle, position and rotation, over which this statement is universal). -/
theorem add_instance_default_dynamic_parameters (s : WorldRenderer) (mesh : MeshHandle)
    (position : Vec3) (rotation : Quat) :
    ∃ inst : MeshInstance,
      (s.add_instance mesh position rotation).2.instances.getLast? = some inst ∧
      inst.dynamic_parameters = InstanceDynamicParameters.default ∧
      inst.dynamic_parameters.emissive_multiplier = 1 := by
  refine ⟨mkMeshInstance mesh position rotation, ?_, rfl, rfl⟩
  simp [WorldRenderer.add_instance]

/-- Counterexample to C2: in the freshly created renderer no mesh is registered at
all, yet `add_instance` with mesh index 5 succeeds and records the instance —
`add_instance` does not validate the mesh handle and does not fail. -/
theorem add_instance_no_validation_counterexample :
    WorldRenderer.new_empty.meshes.length = 0 ∧
    (WorldRenderer.new_empty.add_instance ⟨5⟩ ⟨0, 0, 0⟩ ⟨0, 0, 0, 1⟩).2.instances.length = 1 ∧
    ((WorldRenderer.new_empty.add_instance ⟨5⟩ ⟨0, 0, 0⟩ ⟨0, 0, 0, 1⟩).2.instances.getLastD
        dummyInstance).mesh = ⟨5⟩ :=
  ⟨rfl, rfl, rfl⟩

/-- C2 (amended): `add_instance` performs no validation of the mesh handle — the
instance is always recorded, whatever the mesh index; the invalid index only faults
later, when the TLAS build paths index `mesh_blas` with it (their instance snapshot
panics, modelled by `tlas_instance_descs = none`). -/
theorem add_instance_defers_mesh_validation (s : WorldRenderer) (mesh : MeshHandle)
    (position : Vec3) (rotation : Quat) :
    (s.add_instance mesh position rotation).2.instances.length = s.instances.length + 1 ∧
    ((s.add_instance mesh position rotation).2.instances.getLastD dummyInstance).mesh = mesh ∧
    (s.add_instance mesh position rotation).2.mesh_blas = s.mesh_blas ∧
    (s.mesh_blas ≤ mesh.val →
      (s.add_instance mesh position rotation).2.tlas_instance_descs = none) := by
  refine ⟨by simp [WorldRenderer.add_instance], ?_, rfl, fun hge => ?_⟩
  · simp [WorldRenderer.add_instance, mkMeshInstance]
  · simp only [WorldRenderer.tlas_instance_descs, WorldRenderer.add_instance]
    exact tlasDescList_append_unregistered s.mesh_blas s.instances _
      (by simpa [mkMeshInstance] using hge)

/-- Witness for the implication of `add_instance_defers_mesh_validation`: with no
registered BLAS, the instance snapshot for the TLAS rebuild panics. -/
theorem add_instance_defers_mesh_validation_witness :
    (WorldRenderer.new_empty.add_instance ⟨5⟩ ⟨0, 0, 0⟩ ⟨0, 0, 0, 1⟩).2.tlas_instance_descs
      = none :=
  (add_instance_defers_mesh_validation WorldRenderer.new_empty ⟨5⟩ ⟨0, 0, 0⟩
    ⟨0, 0, 0, 1⟩).2.2.2 (Nat.zero_le 5)

/-! ### Claim C5: retire_frame -/

/-- C5: `retire_frame` advances the frame index by one modulo `2 ^ 32` (wrapping,
never faulting) and then copies, for every live instance, the current transform
into the previous-transform fields.  The statement is universal in the pre-state
`s`, so it applies in particular to the state reached after arbitrarily many
`set_instance_transform` calls: the previous transform after retirement is the
transform current at the moment of the call — only the latest update wins. -/
theorem retire_frame_temporal (s : WorldRenderer) :
    (s.retire_frame).frame_idx = (s.frame_idx + 1) % 2 ^ 32 ∧
    (s.retire_frame).instances.length = s.instances.length ∧
    ∀ i : Nat,
      (s.retire_frame).instances[i]? = (s.instances[i]?).map
        (fun inst =>
          { inst with prev_position := inst.position, prev_rotation := inst.rotation }) := by
  refine ⟨rfl, ?_, fun i => ?_⟩
  · simp [WorldRenderer.retire_frame, WorldRenderer.store_prev_mesh_transforms]
  · simp [WorldRenderer.retire_frame, WorldRenderer.store_prev_mesh_transforms,
      List.getElem?_map]

/-! ### Claim C6: set_instance_transform -/

/-- C6: for a known handle, `set_instance_transform` rewrites only the current
position and rotation of the addressed instance; its previous-frame fields, its
dynamic shading parameters and its mesh reference are untouched, every other
instance is untouched, and the handle table, handle map and mesh list are
untouched. -/
theorem set_instance_transform_only_current (s : WorldRenderer) (h : InstanceHandle)
    (position : Vec3) (rotation : Quat) (index : Nat) (s2 : WorldRenderer)
    (hlook : alistLookup s.instance_handle_to_index h = some index)
    (hset : s.set_instance_transform h position rotation = some s2) :
    s2.instances.length = s.instances.length ∧
    (∀ inst, s.instances[index]? = some inst →
      s2.instances[index]? =
        some { inst with position := position, rotation := Mat3.from_quat rotation }) ∧
    (∀ inst inst2, s.instances[index]? = some inst → s2.instances[index]? = some inst2 →
      inst2.prev_position = inst.prev_position ∧ inst2.prev_rotation = inst.prev_rotation ∧
      inst2.mesh = inst.mesh ∧ inst2.dynamic_parameters = inst.dynamic_parameters) ∧
    (∀ j, j ≠ index → s2.instances[j]? = s.instances[j]?) ∧
    s2.instance_handles = s.instance_handles ∧
    s2.instance_handle_to_index = s.instance_handle_to_index ∧
    s2.meshes = s.meshes := by
  rw [WorldRenderer.set_instance_transform, hlook] at hset
  have hs2 : s2 = { s with instances := listModify s.instances index (fun m =>
      { m with position := position, rotation := Mat3.from_quat rotation }) } :=
    (Option.some.inj hset).symm
  subst hs2
  refine ⟨length_listModify _ _ _, fun inst hinst => ?_, fun inst inst2 hinst hinst2 => ?_,
    fun j hj => getElem?_listModify_ne _ _ _ _ hj, rfl, rfl, rfl⟩
  · rw [show ({ s with instances := listModify s.instances index _ } : WorldRenderer).instances
        = listModify s.instances index (fun m =>
            { m with position := position, rotation := Mat3.from_quat rotation }) from rfl,
      getElem?_listModify_self, hinst]
    rfl
  · have := getElem?_listModify_self s.instances index (fun m =>
      { m with position := position, rotation := Mat3.from_quat rotation })
    rw [hinst] at this
    rw [this] at hinst2
    have h3 : ({ inst with position := position, rotation := Mat3.from_quat rotation } : MeshInstance) = inst2 :=
      Option.some.inj hinst2
    rw [← h3]
    exact ⟨rfl, rfl, rfl, rfl⟩

/-- Witness for `set_instance_transform_only_current`: handle 0 of the one-instance
state is known (it maps to slot 0) and the update leaves the handle table
unchanged. -/
theorem set_instance_transform_only_current_witness :
    witnessState2.instance_handles = witnessState1.instance_handles :=
  (set_instance_transform_only_current witnessState1 ⟨0⟩ ⟨4, 5, 6⟩ ⟨0, 0, 0, 1⟩ 0 witnessState2
    rfl (opt_eq_some_getD _ _ rfl)).2.2.2.2.1

/-! ### Claim C9: jitter cycling -/

/-- C9: with the 16-entry jitter sequence installed by `new_empty`, the offset the
render path selects (`sequence[frame_idx mod len]`) is the same for frame index `f`
and for frame index `f + 16` (frame indices live in `u32`, hence the `% 2 ^ 32`
wrapping under which the cycle also survives, since `16` divides `2 ^ 32`). -/
theorem jitter_cycles_mod_16 (s : WorldRenderer) (f : Nat)
    (hoff : s.supersample_offsets = default_supersample_offsets) :
    s.supersample_offsets.length = 16 ∧
    WorldRenderer.current_supersample_offset { s with frame_idx := (f + 16) % 2 ^ 32 } =
      WorldRenderer.current_supersample_offset { s with frame_idx := f % 2 ^ 32 } := by
  have hlen : s.supersample_offsets.length = 16 := by
    rw [hoff]; simp [default_supersample_offsets]
  refine ⟨hlen, ?_⟩
  have h16 : (16 : Nat) ∣ 2 ^ 32 := ⟨2 ^ 28, by norm_num⟩
  simp only [WorldRenderer.current_supersample_offset]
  rw [hlen, Nat.mod_mod_of_dvd _ h16, Nat.mod_mod_of_dvd _ h16, Nat.add_mod_right]

/-- Witness for `jitter_cycles_mod_16` at the freshly created renderer and frame 5. -/
theorem jitter_cycles_mod_16_witness :
    WorldRenderer.current_supersample_offset
        { WorldRenderer.new_empty with frame_idx := (5 + 16) % 2 ^ 32 } =
      WorldRenderer.current_supersample_offset
        { WorldRenderer.new_empty with frame_idx := 5 % 2 ^ 32 } :=
  (jitter_cycles_mod_16 WorldRenderer.new_empty 5 rfl).2

/-! ### Invariant machinery for the instance table (claims C3, C4) -/

theorem getElem?_some_lt {α : Type} {l : List α} {i : Nat} {a : α} (h : l[i]? = some a) :
    i < l.length := by
  by_contra hn
  rw [List.getElem?_eq_none (by omega)] at h
  exact Option.noConfusion h

theorem abs_new_empty : Abs WorldRenderer.new_empty ⟨[], 0⟩ := by
  refine ⟨⟨rfl, fun h i => ?_⟩, fun h i hl => ?_, fun h hl => ?_, fun h i hl => ?_, rfl⟩
  · constructor
    · intro hl; exact Option.noConfusion hl
    · intro hl; simp [WorldRenderer.new_empty] at hl
  · exact Option.noConfusion hl
  · simp [alistLookup] at hl
  · exact Option.noConfusion hl

theorem abs_add_instance (s : WorldRenderer) (t : SpecTable) (habs : Abs s t)
    (mesh : MeshHandle) (position : Vec3) (rotation : Quat) :
    Abs (s.add_instance mesh position rotation).2
      ⟨alistInsert t.entries ⟨t.next⟩ (mkMeshInstance mesh position rotation), t.next + 1⟩ := by
  obtain ⟨⟨hlen, hiff⟩, hdata, hdom, hfresh, hnext⟩ := habs
  set H : InstanceHandle := ⟨s.next_instance_handle⟩ with hH
  have hHt : (⟨t.next⟩ : InstanceHandle) = H := by rw [hH, hnext]
  have hHnone : alistLookup s.instance_handle_to_index H = none := by
    cases hl : alistLookup s.instance_handle_to_index H with
    | none => rfl
    | some i => exact absurd (hfresh H i hl) (by simp [hH])
  have hs2i : (s.add_instance mesh position rotation).2.instances
      = s.instances ++ [mkMeshInstance mesh position rotation] := rfl
  have hs2h : (s.add_instance mesh position rotation).2.instance_handles
      = s.instance_handles ++ [H] := rfl
  have hs2m : (s.add_instance mesh position rotation).2.instance_handle_to_index
      = alistInsert s.instance_handle_to_index H s.instances.length := rfl
  have hs2n : (s.add_instance mesh position rotation).2.next_instance_handle
      = s.next_instance_handle + 1 := rfl
  have hiff2 : ∀ h i,
      alistLookup (alistInsert s.instance_handle_to_index H s.instances.length) h = some i ↔
      (s.instance_handles ++ [H])[i]? = some h := by
    intro h i
    by_cases hh : h = H
    · subst hh
      rw [alistLookup_insert_self]
      constructor
      · intro hl
        have hi : i = s.instances.length := (Option.some.inj hl).symm
        subst hi
        rw [List.getElem?_append_right (by omega), hlen]
        simp
      · intro hr
        rcases Nat.lt_or_ge i s.instance_handles.length with hi | hi
        · rw [List.getElem?_append_left hi] at hr
          exact absurd ((hiff H i).2 hr) (by rw [hHnone]; exact fun hc => Option.noConfusion hc)
        · rw [List.getElem?_append_right hi] at hr
          have : i - s.instance_handles.length = 0 := by
            by_contra hne
            rw [List.getElem?_eq_none (by simp; omega)] at hr
            exact Option.noConfusion hr
          have hi2 : i = s.instance_handles.length := by omega
          rw [hi2, ← hlen]
    · rw [alistLookup_insert_ne _ _ _ _ hh]
      constructor
      · intro hl
        have hr := (hiff h i).1 hl
        rw [List.getElem?_append_left (getElem?_some_lt hr)]
        exact hr
      · intro hr
        rcases Nat.lt_or_ge i s.instance_handles.length with hi | hi
        · rw [List.getElem?_append_left hi] at hr
          exact (hiff h i).2 hr
        · rw [List.getElem?_append_right hi] at hr
          rcases Nat.lt_or_ge (i - s.instance_handles.length) 1 with hi1 | hi1
          · have : i - s.instance_handles.length = 0 := by omega
            rw [this] at hr
            exact absurd (Option.some.inj hr).symm hh
          · rw [List.getElem?_eq_none (by simp; omega)] at hr
            exact Option.noConfusion hr
  refine ⟨⟨?_, ?_⟩, ?_, ?_, ?_, ?_⟩
  · rw [hs2i, hs2h, List.length_append, List.length_append, hlen]
    rfl
  · intro h i
    rw [hs2m, hs2h]
    exact hiff2 h i
  · intro h i hl
    rw [hs2m] at hl
    rw [hs2i]
    rw [hHt]
    by_cases hh : h = H
    · subst hh
      rw [alistLookup_insert_self] at hl
      have hi : i = s.instances.length := (Option.some.inj hl).symm
      subst hi
      refine ⟨mkMeshInstance mesh position rotation, ?_, ?_⟩
      · rw [List.getElem?_append_right (by omega)]
        simp
      · exact alistLookup_insert_self _ _ _
    · rw [alistLookup_insert_ne _ _ _ _ hh] at hl
      obtain ⟨inst, hinst, hspec⟩ := hdata h i hl
      refine ⟨inst, ?_, ?_⟩
      · rw [List.getElem?_append_left (getElem?_some_lt hinst)]
        exact hinst
      · rw [alistLookup_insert_ne _ _ _ _ hh]
        exact hspec
  · intro h hl
    rw [hs2m]
    rw [hHt] at hl
    by_cases hh : h = H
    · subst hh
      rw [alistLookup_insert_self]
      rfl
    · rw [alistLookup_insert_ne _ _ _ _ hh] at hl
      rw [alistLookup_insert_ne _ _ _ _ hh]
      exact hdom h hl
  · intro h i hl
    rw [hs2m] at hl
    rw [hs2n]
    by_cases hh : h = H
    · subst hh
      show s.next_instance_handle < s.next_instance_handle + 1
      omega
    · rw [alistLookup_insert_ne _ _ _ _ hh] at hl
      have := hfresh h i hl
      omega
  · rw [hs2n, hnext]

theorem exists_getElem?_of_lt {α : Type} (l : List α) {i : Nat} (h : i < l.length) :
    ∃ a, l[i]? = some a :=
  ⟨l[i], List.getElem?_eq_getElem h⟩

theorem getLast?_of_getElem? {α : Type} {l : List α} {a : α}
    (h : l[l.length - 1]? = some a) : l.getLast? = some a := by
  rw [List.getLast?_eq_getElem?]
  exact h

theorem abs_remove_instance (s : WorldRenderer) (t : SpecTable) (habs : Abs s t)
    (h0 : InstanceHandle) (s2 : WorldRenderer)
    (hrem : s.remove_instance h0 = some s2) :
    ∃ inst0, alistLookup t.entries h0 = some inst0 ∧
      Abs s2 ⟨alistErase t.entries h0, t.next⟩ := by
  obtain ⟨⟨hlen, hiff⟩, hdata, hdom, hfresh, hnext⟩ := habs
  cases hk : alistLookup s.instance_handle_to_index h0 with
  | none =>
    rw [WorldRenderer.remove_instance, hk] at hrem
    exact Option.noConfusion hrem
  | some k =>
  have hcall : s.remove_instance h0 = some { s with
      instances := swapRemove s.instances k
      instance_handles := swapRemove s.instance_handles k
      instance_handle_to_index :=
        repairedMap (alistErase s.instance_handle_to_index h0)
          ((swapRemove s.instance_handles k)[k]?) k } := by
    rw [WorldRenderer.remove_instance, hk]
  rw [hcall] at hrem
  have hs2 := Option.some.inj hrem
  have hs2i : s2.instances = swapRemove s.instances k := by rw [← hs2]
  have hs2h : s2.instance_handles = swapRemove s.instance_handles k := by rw [← hs2]
  have hs2m : s2.instance_handle_to_index
      = repairedMap (alistErase s.instance_handle_to_index h0)
          ((swapRemove s.instance_handles k)[k]?) k := by rw [← hs2]
  have hs2n : s2.next_instance_handle = s.next_instance_handle := by rw [← hs2]
  have hr : s.instance_handles[k]? = some h0 := (hiff h0 k).1 hk
  have hkn : k < s.instance_handles.length := getElem?_some_lt hr
  obtain ⟨lastH, hlastH'⟩ :=
    exists_getElem?_of_lt s.instance_handles
      (show s.instance_handles.length - 1 < s.instance_handles.length by omega)
  have hlastH : s.instance_handles.getLast? = some lastH := getLast?_of_getElem? hlastH'
  obtain ⟨lastI, hlastI'⟩ :=
    exists_getElem?_of_lt s.instances
      (show s.instances.length - 1 < s.instances.length by omega)
  have hlastI : s.instances.getLast? = some lastI := getLast?_of_getElem? hlastI'
  have hlookup_last : alistLookup s.instance_handle_to_index lastH
      = some (s.instance_handles.length - 1) :=
    (hiff lastH (s.instance_handles.length - 1)).2 hlastH'
  obtain ⟨inst0, hinst0, hspec0⟩ := hdata h0 k hk
  have hgetH : ∀ i, (swapRemove s.instance_handles k)[i]? =
      if i < s.instance_handles.length - 1
      then (if i = k then some lastH else s.instance_handles[i]?) else none :=
    fun i => getElem?_swapRemove _ _ _ _ hlastH
  have hgetI : ∀ i, (swapRemove s.instances k)[i]? =
      if i < s.instances.length - 1
      then (if i = k then some lastI else s.instances[i]?) else none :=
    fun i => getElem?_swapRemove _ _ _ _ hlastI
  have hlenI : (swapRemove s.instances k).length = s.instances.length - 1 :=
    length_swapRemove _ _ _ hlastI
  have hlenH : (swapRemove s.instance_handles k).length = s.instance_handles.length - 1 :=
    length_swapRemove _ _ _ hlastH
  rcases Nat.lt_or_ge k (s.instance_handles.length - 1) with hcase | hcase
  · -- the removed slot is not the last one: the last element is relocated to slot k
    have hlastH_ne : lastH ≠ h0 := by
      intro he
      rw [he] at hlookup_last
      rw [hk] at hlookup_last
      have := Option.some.inj hlookup_last
      omega
    obtain ⟨instL, hinstL, hspecL⟩ :=
      hdata lastH (s.instance_handles.length - 1) hlookup_last
    have hinstL_eq : instL = lastI := by
      rw [hlen] at hlastI'
      rw [hlastI'] at hinstL
      exact (Option.some.inj hinstL).symm
    subst hinstL_eq
    have hswq : (swapRemove s.instance_handles k)[k]? = some lastH := by
      rw [hgetH k, if_pos hcase, if_pos rfl]
    rw [hswq, repairedMap_some] at hs2m
    refine ⟨inst0, hspec0, ⟨?_, ?_⟩, ?_, ?_, ?_, hnext.trans hs2n.symm⟩
    · rw [hs2i, hs2h, hlenI, hlenH, hlen]
    · intro h i
      rw [hs2m, hs2h, hgetH i]
      by_cases hh : h = lastH
      · subst hh
        rw [alistLookup_insert_self]
        constructor
        · intro hl
          have hik : i = k := (Option.some.inj hl).symm
          subst hik
          rw [if_pos hcase, if_pos rfl]
        · intro hrr
          by_cases hi : i < s.instance_handles.length - 1
          · rw [if_pos hi] at hrr
            by_cases hik : i = k
            · rw [hik]
            · rw [if_neg hik] at hrr
              have := (hiff _ i).2 hrr
              rw [hlookup_last] at this
              have := Option.some.inj this
              omega
          · rw [if_neg hi] at hrr
            exact Option.noConfusion hrr
      · rw [alistLookup_insert_ne _ _ _ _ hh]
        by_cases hh0 : h = h0
        · subst hh0
          rw [alistLookup_erase_self]
          constructor
          · intro hl; exact Option.noConfusion hl
          · intro hrr
            by_cases hi : i < s.instance_handles.length - 1
            · rw [if_pos hi] at hrr
              by_cases hik : i = k
              · rw [if_pos hik] at hrr
                cases Option.some.inj hrr
                exact absurd rfl hh
              · rw [if_neg hik] at hrr
                have h2 := (hiff h i).2 hrr
                rw [hk] at h2
                cases Option.some.inj h2
                exact absurd rfl hik
            · rw [if_neg hi] at hrr
              exact Option.noConfusion hrr
        · rw [alistLookup_erase_ne _ _ _ hh0]
          constructor
          · intro hl
            have hrr := (hiff h i).1 hl
            have hi : i < s.instance_handles.length := getElem?_some_lt hrr
            have hik : i ≠ k := by
              intro he
              rw [he, hr] at hrr
              exact hh0 (Option.some.inj hrr).symm
            have hi1 : i ≠ s.instance_handles.length - 1 := by
              intro he
              rw [he, hlastH'] at hrr
              exact hh (Option.some.inj hrr).symm
            rw [if_pos (by omega), if_neg hik]
            exact hrr
          · intro hrr
            by_cases hi : i < s.instance_handles.length - 1
            · rw [if_pos hi] at hrr
              by_cases hik : i = k
              · rw [if_pos hik] at hrr
                cases Option.some.inj hrr
                exact absurd rfl hh
              · rw [if_neg hik] at hrr
                exact (hiff h i).2 hrr
            · rw [if_neg hi] at hrr
              exact Option.noConfusion hrr
    · intro h i hl
      rw [hs2m] at hl
      rw [hs2i]
      by_cases hh : h = lastH
      · subst hh
        rw [alistLookup_insert_self] at hl
        have hik : i = k := (Option.some.inj hl).symm
        subst hik
        refine ⟨instL, ?_, ?_⟩
        · rw [hgetI i, if_pos (by omega), if_pos rfl]
        · rw [alistLookup_erase_ne _ _ _ hlastH_ne]
          exact hspecL
      · rw [alistLookup_insert_ne _ _ _ _ hh] at hl
        by_cases hh0 : h = h0
        · subst hh0
          rw [alistLookup_erase_self] at hl
          exact Option.noConfusion hl
        · rw [alistLookup_erase_ne _ _ _ hh0] at hl
          obtain ⟨inst, hins, hsp⟩ := hdata h i hl
          have hrr := (hiff h i).1 hl
          have hi : i < s.instance_handles.length := getElem?_some_lt hrr
          have hik : i ≠ k := by
            intro he
            rw [he, hr] at hrr
            exact hh0 (Option.some.inj hrr).symm
          have hi1 : i ≠ s.instance_handles.length - 1 := by
            intro he
            rw [he, hlastH'] at hrr
            exact hh (Option.some.inj hrr).symm
          refine ⟨inst, ?_, ?_⟩
          · rw [hgetI i, if_pos (by omega), if_neg hik]
            exact hins
          · rw [alistLookup_erase_ne _ _ _ hh0]
            exact hsp
    · intro h hl
      rw [hs2m]
      by_cases hh0 : h = h0
      · subst hh0
        rw [alistLookup_erase_self] at hl
        simp at hl
      · rw [alistLookup_erase_ne _ _ _ hh0] at hl
        have hl2 := hdom h hl
        cases hlk : alistLookup s.instance_handle_to_index h with
        | none => rw [hlk] at hl2; simp at hl2
        | some i =>
          have hrr := (hiff h i).1 hlk
          have hi : i < s.instance_handles.length := getElem?_some_lt hrr
          by_cases hh : h = lastH
          · subst hh
            rw [alistLookup_insert_self]
            rfl
          · rw [alistLookup_insert_ne _ _ _ _ hh, alistLookup_erase_ne _ _ _ hh0, hlk]
            rfl
    · intro h i hl
      rw [hs2m] at hl
      rw [hs2n]
      by_cases hh : h = lastH
      · subst hh
        exact hfresh _ _ hlookup_last
      · rw [alistLookup_insert_ne _ _ _ _ hh] at hl
        by_cases hh0 : h = h0
        · subst hh0
          rw [alistLookup_erase_self] at hl
          exact Option.noConfusion hl
        · rw [alistLookup_erase_ne _ _ _ hh0] at hl
          exact hfresh _ _ hl
  · -- the removed slot is the last one: no relocation happens
    have hkeq : k = s.instance_handles.length - 1 := by omega
    have hlastH_eq : lastH = h0 := by
      rw [← hkeq] at hlastH'
      rw [hlastH'] at hr
      exact Option.some.inj hr
    have hswq : (swapRemove s.instance_handles k)[k]? = none := by
      rw [hgetH k, if_neg (by omega)]
    rw [hswq, repairedMap_none] at hs2m
    refine ⟨inst0, hspec0, ⟨?_, ?_⟩, ?_, ?_, ?_, hnext.trans hs2n.symm⟩
    · rw [hs2i, hs2h, hlenI, hlenH, hlen]
    · intro h i
      rw [hs2m, hs2h, hgetH i]
      by_cases hh0 : h = h0
      · subst hh0
        rw [alistLookup_erase_self]
        constructor
        · intro hl; exact Option.noConfusion hl
        · intro hrr
          by_cases hi : i < s.instance_handles.length - 1
          · rw [if_pos hi, if_neg (by omega)] at hrr
            have := (hiff _ i).2 hrr
            rw [hk] at this
            have := Option.some.inj this
            omega
          · rw [if_neg hi] at hrr
            exact Option.noConfusion hrr
      · rw [alistLookup_erase_ne _ _ _ hh0]
        constructor
        · intro hl
          have hrr := (hiff h i).1 hl
          have hi : i < s.instance_handles.length := getElem?_some_lt hrr
          have hi1 : i ≠ s.instance_handles.length - 1 := by
            intro he
            rw [he, hlastH'] at hrr
            exact hh0 ((Option.some.inj hrr).symm.trans hlastH_eq)
          rw [if_pos (by omega), if_neg (by omega)]
          exact hrr
        · intro hrr
          by_cases hi : i < s.instance_handles.length - 1
          · rw [if_pos hi, if_neg (by omega)] at hrr
            exact (hiff h i).2 hrr
          · rw [if_neg hi] at hrr
            exact Option.noConfusion hrr
    · intro h i hl
      rw [hs2m] at hl
      rw [hs2i]
      by_cases hh0 : h = h0
      · subst hh0
        rw [alistLookup_erase_self] at hl
        exact Option.noConfusion hl
      · rw [alistLookup_erase_ne _ _ _ hh0] at hl
        obtain ⟨inst, hins, hsp⟩ := hdata h i hl
        have hrr := (hiff h i).1 hl
        have hi : i < s.instance_handles.length := getElem?_some_lt hrr
        have hi1 : i ≠ s.instance_handles.length - 1 := by
          intro he
          rw [he, hlastH'] at hrr
          exact hh0 ((Option.some.inj hrr).symm.trans hlastH_eq)
        refine ⟨inst, ?_, ?_⟩
        · rw [hgetI i, if_pos (by omega), if_neg (by omega)]
          exact hins
        · rw [alistLookup_erase_ne _ _ _ hh0]
          exact hsp
    · intro h hl
      rw [hs2m]
      by_cases hh0 : h = h0
      · subst hh0
        rw [alistLookup_erase_self] at hl
        simp at hl
      · rw [alistLookup_erase_ne _ _ _ hh0] at hl
        have hl2 := hdom h hl
        rw [alistLookup_erase_ne _ _ _ hh0]
        exact hl2
    · intro h i hl
      rw [hs2m] at hl
      rw [hs2n]
      by_cases hh0 : h = h0
      · subst hh0
        rw [alistLookup_erase_self] at hl
        exact Option.noConfusion hl
      · rw [alistLookup_erase_ne _ _ _ hh0] at hl
        exact hfresh _ _ hl

theorem abs_applyOp (s : WorldRenderer) (t : SpecTable) (habs : Abs s t) (op : SceneOp)
    (s2 : WorldRenderer) (happ : applyOp s op = some s2) :
    ∃ t2, specApply t op = some t2 ∧ Abs s2 t2 := by
  cases op with
  | add m p r =>
    have hs2 : s2 = (s.add_instance m p r).2 := (Option.some.inj happ).symm
    subst hs2
    exact ⟨_, rfl, abs_add_instance s t habs m p r⟩
  | remove h =>
    obtain ⟨inst0, hspec0, habs2⟩ := abs_remove_instance s t habs h s2 happ
    refine ⟨⟨alistErase t.entries h, t.next⟩, ?_, habs2⟩
    simp [specApply, hspec0]

theorem abs_runOps (ops : List SceneOp) :
    ∀ (s : WorldRenderer) (t : SpecTable), Abs s t →
    ∀ s2 : WorldRenderer, runOps s ops = some s2 →
    ∃ t2, specRun t ops = some t2 ∧ Abs s2 t2 := by
  induction ops with
  | nil =>
    intro s t habs s2 hrun
    exact ⟨t, rfl, (Option.some.inj hrun) ▸ habs⟩
  | cons op rest ih =>
    intro s t habs s2 hrun
    simp only [runOps] at hrun
    cases happ : applyOp s op with
    | none => rw [happ] at hrun; exact Option.noConfusion hrun
    | some smid =>
      rw [happ] at hrun
      obtain ⟨tmid, htmid, habsmid⟩ := abs_applyOp s t habs op smid happ
      obtain ⟨t2, ht2, habs2⟩ := ih smid tmid habsmid s2 hrun
      refine ⟨t2, ?_, habs2⟩
      simp only [specRun]
      rw [htmid]
      exact ht2

theorem runOps_take_isSome (ops : List SceneOp) :
    ∀ (s s2 : WorldRenderer), runOps s ops = some s2 →
    ∀ k : Nat, ∃ smid, runOps s (ops.take k) = some smid := by
  induction ops with
  | nil =>
    intro s s2 hrun k
    refine ⟨s, ?_⟩
    cases k <;> rfl
  | cons op rest ih =>
    intro s s2 hrun k
    cases k with
    | zero => exact ⟨s, rfl⟩
    | succ k2 =>
      rw [List.take_succ_cons]
      simp only [runOps] at hrun ⊢
      cases happ : applyOp s op with
      | none => rw [happ] at hrun; exact Option.noConfusion hrun
      | some smid =>
        rw [happ] at hrun
        exact ih smid s2 hrun k2

/-! ### Claim C3: handle stability and the length invariant -/

/-- C3: for any sequence of `add_instance` / `remove_instance` calls from the fresh
renderer, (a) after every prefix of the sequence the instance array and the handle
array have the same length, and (b) every handle still alive at the end resolves,
through the handle → index map, to exactly the instance data the abstract
specification table (`specRun`, which records creation data per handle and never
moves it) holds for it — i.e. the data the handle was created with; no transform
updates occur in such a sequence. -/
theorem instance_table_handle_stability (ops : List SceneOp) (s2 : WorldRenderer)
    (hrun : runOps WorldRenderer.new_empty ops = some s2) :
    (∀ k, ∃ smid, runOps WorldRenderer.new_empty (ops.take k) = some smid ∧
        smid.instances.length = smid.instance_handles.length) ∧
    ∃ tl : SpecTable, specRun ⟨[], 0⟩ ops = some tl ∧
      ∀ h i, alistLookup s2.instance_handle_to_index h = some i →
        ∃ inst, s2.instances[i]? = some inst ∧ alistLookup tl.entries h = some inst := by
  constructor
  · intro k
    obtain ⟨smid, hsmid⟩ := runOps_take_isSome ops WorldRenderer.new_empty s2 hrun k
    obtain ⟨tmid, _, habs⟩ :=
      abs_runOps (ops.take k) WorldRenderer.new_empty ⟨[], 0⟩ abs_new_empty smid hsmid
    exact ⟨smid, hsmid, habs.1.1⟩
  · obtain ⟨tl, htl, habs⟩ :=
      abs_runOps ops WorldRenderer.new_empty ⟨[], 0⟩ abs_new_empty s2 hrun
    exact ⟨tl, htl, habs.2.1⟩

/-- Witness for `instance_table_handle_stability`: after add, add, remove-first,
the surviving handle 1 resolves (now at slot 0) to exactly the data the
specification table recorded for it at creation. -/
theorem instance_table_handle_stability_witness :
    c3s.instances[0]? = alistLookup c3t.entries ⟨1⟩ := by
  obtain ⟨_, tl, htl, hres⟩ :=
    instance_table_handle_stability c3ops c3s (opt_eq_some_getD _ _ rfl)
  obtain ⟨inst, hinst, hspec⟩ := hres ⟨1⟩ 0 rfl
  have htlc : tl = c3t := by
    have h2 : specRun ⟨[], 0⟩ c3ops = some c3t := opt_eq_some_getD _ _ rfl
    rw [htl] at h2
    exact Option.some.inj h2
  rw [hinst, ← htlc, hspec]

/-! ### Claim C4: swap-remove correctness -/

/-- C4: in a well-formed table, removing the instance stored at slot `k` (of `n`)
through its handle succeeds, leaves exactly `n - 1` instances (and `n - 1`
handles), and the handle that previously mapped to the last slot — when it is not
the handle being removed — afterwards maps to slot `k`. -/
theorem remove_instance_swap_correct (s : WorldRenderer) (h hLast : InstanceHandle) (k : Nat)
    (hwf : s.WellFormed)
    (hk : alistLookup s.instance_handle_to_index h = some k)
    (hlast : alistLookup s.instance_handle_to_index hLast = some (s.instances.length - 1))
    (hne : hLast ≠ h) :
    ∃ s2, s.remove_instance h = some s2 ∧
      s2.instances.length = s.instances.length - 1 ∧
      s2.instance_handles.length = s.instances.length - 1 ∧
      alistLookup s2.instance_handle_to_index hLast = some k := by
  obtain ⟨hlen, hiff⟩ := hwf
  have hr : s.instance_handles[k]? = some h := (hiff h k).1 hk
  have hkn : k < s.instance_handles.length := getElem?_some_lt hr
  have hlast' : s.instance_handles[s.instances.length - 1]? = some hLast :=
    (hiff hLast _).1 hlast
  have hkne : k ≠ s.instances.length - 1 := by
    intro he
    rw [he] at hr
    rw [hlast'] at hr
    exact hne (Option.some.inj hr)
  have hlastH' : s.instance_handles[s.instance_handles.length - 1]? = some hLast := by
    rw [← hlen]
    exact hlast'
  have hlastH : s.instance_handles.getLast? = some hLast := getLast?_of_getElem? hlastH'
  obtain ⟨lastI, hlastI'⟩ :=
    exists_getElem?_of_lt s.instances
      (show s.instances.length - 1 < s.instances.length by omega)
  have hlastI : s.instances.getLast? = some lastI := getLast?_of_getElem? hlastI'
  have hcall : s.remove_instance h = some { s with
      instances := swapRemove s.instances k
      instance_handles := swapRemove s.instance_handles k
      instance_handle_to_index :=
        repairedMap (alistErase s.instance_handle_to_index h)
          ((swapRemove s.instance_handles k)[k]?) k } := by
    rw [WorldRenderer.remove_instance, hk]
  have hswq : (swapRemove s.instance_handles k)[k]? = some hLast := by
    rw [getElem?_swapRemove _ _ _ _ hlastH, if_pos (by omega), if_pos rfl]
  refine ⟨_, hcall, ?_, ?_, ?_⟩
  · exact length_swapRemove _ _ _ hlastI
  · rw [length_swapRemove _ _ _ hlastH, hlen]
  · show alistLookup (repairedMap (alistErase s.instance_handle_to_index h)
      ((swapRemove s.instance_handles k)[k]?) k) hLast = some k
    rw [hswq, repairedMap_some, alistLookup_insert_self]

/-- Witness for `remove_instance_swap_correct`: with two instances, removing the
one at slot 0 relocates handle 1 (previously at the last slot) to slot 0. -/
theorem remove_instance_swap_correct_witness :
    alistLookup c4r.instance_handle_to_index ⟨1⟩ = some 0 := by
  have hwf : c4s.WellFormed :=
    (abs_add_instance witnessState1 _
      (abs_add_instance WorldRenderer.new_empty ⟨[], 0⟩ abs_new_empty ⟨0⟩ ⟨1, 2, 3⟩
        ⟨0, 0, 0, 1⟩) ⟨0⟩ ⟨4, 5, 6⟩ ⟨0, 0, 0, 1⟩).1
  obtain ⟨s2, hs2, _, _, hmap⟩ :=
    remove_instance_swap_correct c4s ⟨0⟩ ⟨1⟩ 0 hwf rfl rfl (by decide)
  have hc : c4s.remove_instance ⟨0⟩ = some c4r := opt_eq_some_getD _ _ rfl
  rw [hs2] at hc
  exact (Option.some.inj hc) ▸ hmap

/-! ### Claim C8: bindless handle uniqueness -/

theorem assignHandles_snd (l : List Nat) : ∀ next : Nat,
    (assignHandles next l).2 = next + l.length := by
  induction l with
  | nil => intro next; simp [assignHandles]
  | cons a rest ih =>
    intro next
    simp only [assignHandles, ih, List.length_cons]
    omega

theorem assignHandles_lookup_range (l : List Nat) :
    ∀ (next id h : Nat), alistLookup (assignHandles next l).1 id = some h →
    ∃ j, j < l.length ∧ h = (next + j) % U32_MOD := by
  induction l with
  | nil => intro next id h hl; exact Option.noConfusion hl
  | cons a rest ih =>
    intro next id h hl
    simp only [assignHandles] at hl
    rw [alistLookup_cons] at hl
    by_cases ha : a = id
    · rw [if_pos ha] at hl
      exact ⟨0, by simp, by rw [← Option.some.inj hl, Nat.add_zero]⟩
    · rw [if_neg ha] at hl
      obtain ⟨j, hj, he⟩ := ih (next + 1) id h hl
      refine ⟨j + 1, by simp; omega, ?_⟩
      rw [he]
      congr 1
      omega

theorem assignHandles_lookup_inj (l : List Nat) :
    ∀ next : Nat, next + l.length ≤ U32_MOD →
    ∀ id1 id2 h1 h2, alistLookup (assignHandles next l).1 id1 = some h1 →
    alistLookup (assignHandles next l).1 id2 = some h2 → id1 ≠ id2 → h1 ≠ h2 := by
  induction l with
  | nil => intro next _ id1 id2 h1 h2 hl1; exact Option.noConfusion hl1
  | cons a rest ih =>
    intro next hcap id1 id2 h1 h2 hl1 hl2 hne
    rw [List.length_cons] at hcap
    simp only [assignHandles] at hl1 hl2
    rw [alistLookup_cons] at hl1 hl2
    by_cases ha1 : a = id1
    · rw [if_pos ha1] at hl1
      have ha2 : ¬ a = id2 := fun he => hne ((ha1.symm.trans he))
      rw [if_neg ha2] at hl2
      obtain ⟨j, hj, he⟩ := assignHandles_lookup_range rest (next + 1) id2 h2 hl2
      have h1v : h1 = next := by
        rw [← Option.some.inj hl1, Nat.mod_eq_of_lt (by omega)]
      have h2v : h2 = next + 1 + j := by
        rw [he, Nat.mod_eq_of_lt (by omega)]
      omega
    · rw [if_neg ha1] at hl1
      by_cases ha2 : a = id2
      · rw [if_pos ha2] at hl2
        obtain ⟨j, hj, he⟩ := assignHandles_lookup_range rest (next + 1) id1 h1 hl1
        have h2v : h2 = next := by
          rw [← Option.some.inj hl2, Nat.mod_eq_of_lt (by omega)]
        have h1v : h1 = next + 1 + j := by
          rw [he, Nat.mod_eq_of_lt (by omega)]
        omega
      · rw [if_neg ha2] at hl2
        exact ih (next + 1) (by omega) id1 id2 h1 h2 hl1 hl2 hne

theorem assignHandles_lookup_isSome (l : List Nat) :
    ∀ (next id : Nat), id ∈ l → (alistLookup (assignHandles next l).1 id).isSome = true := by
  induction l with
  | nil => intro next id hmem; exact absurd hmem (List.not_mem_nil id)
  | cons a rest ih =>
    intro next id hmem
    simp only [assignHandles]
    rw [alistLookup_cons]
    by_cases ha : a = id
    · rw [if_pos ha]; rfl
    · rw [if_neg ha]
      rcases List.mem_cons.1 hmem with he | hmem2
      · exact absurd he.symm ha
      · exact ih (next + 1) id hmem2

theorem mem_insertSorted (a x : Nat) (l : List Nat) :
    x ∈ insertSorted a l ↔ x = a ∨ x ∈ l := by
  induction l with
  | nil => simp [insertSorted]
  | cons b rest ih =>
    rw [insertSorted]
    by_cases hab : a ≤ b
    · rw [if_pos hab]
      simp [List.mem_cons]
    · rw [if_neg hab]
      rw [List.mem_cons, ih, List.mem_cons]
      tauto

theorem mem_sortNat (x : Nat) (l : List Nat) : x ∈ sortNat l ↔ x ∈ l := by
  induction l with
  | nil => simp [sortNat]
  | cons a rest ih =>
    rw [sortNat, mem_insertSorted, ih, List.mem_cons]

theorem mem_dedupAdj (x : Nat) : ∀ l : List Nat, x ∈ dedupAdj l ↔ x ∈ l := by
  intro l
  induction l with
  | nil => simp [dedupAdj]
  | cons a rest ih =>
    cases rest with
    | nil => simp [dedupAdj]
    | cons b rest2 =>
      rw [dedupAdj]
      by_cases hab : a = b
      · rw [if_pos hab, ih]
        subst hab
        simp only [List.mem_cons]
        tauto
      · rw [if_neg hab]
        simp only [List.mem_cons, ih]

theorem mem_uniqueImages (x : Nat) (maps : List Nat) (hmem : x ∈ maps) :
    x ∈ uniqueImages maps := by
  rw [uniqueImages, mem_dedupAdj, mem_sortNat]
  exact hmem

/-- C8: during one `add_mesh` registration, (a) two slots of `mesh.maps` holding the
same texture-asset identity are rewritten to the same bindless handle, (b) two
slots holding distinct identities are rewritten to distinct handles, (c) every
handle issued in the registration lies in
`[next_bindless_image_id, next_bindless_image_id + number of unique images)` — the
handles are handed out strictly increasing — and (d) `next_bindless_image_id`
advances past all of them, so no later registration can ever reuse one.  The
`hcap` hypothesis says the `usize → u32` cast of the handle counter does not wrap;
the fixed-capacity bindless descriptor table (far smaller than `2^32`) enforces it
in the renderer. -/
theorem bindless_handle_uniqueness (next : Nat) (maps : List Nat) (i j : Nat)
    (idi idj : Nat)
    (hcap : next + (uniqueImages maps).length ≤ U32_MOD)
    (hi : maps[i]? = some idi) (hj : maps[j]? = some idj) :
    (idi = idj → (mesh_map_gpu_ids next maps)[i]? = (mesh_map_gpu_ids next maps)[j]?) ∧
    (idi ≠ idj → ∀ hi2 hj2, (mesh_map_gpu_ids next maps)[i]? = some hi2 →
      (mesh_map_gpu_ids next maps)[j]? = some hj2 → hi2 ≠ hj2) ∧
    (∀ id h2, alistLookup (material_map_to_image next maps) id = some h2 →
      next ≤ h2 ∧ h2 < next + (uniqueImages maps).length) ∧
    (assignHandles next (uniqueImages maps)).2 = next + (uniqueImages maps).length := by
  have hmapi : ∀ i2 : Nat, (mesh_map_gpu_ids next maps)[i2]? = (maps[i2]?).map
      (fun m => (alistLookup (material_map_to_image next maps) m).getD 0) := by
    intro i2
    rw [mesh_map_gpu_ids, List.getElem?_map]
  refine ⟨?_, ?_, ?_, assignHandles_snd _ _⟩
  · intro heq
    rw [hmapi i, hmapi j, hi, hj, heq]
  · intro hne hi2 hj2 hgi hgj
    rw [hmapi i, hi] at hgi
    rw [hmapi j, hj] at hgj
    have hmi : (alistLookup (material_map_to_image next maps) idi).isSome = true :=
      assignHandles_lookup_isSome _ _ _ (mem_uniqueImages idi maps (List.getElem?_mem hi))
    have hmj : (alistLookup (material_map_to_image next maps) idj).isSome = true :=
      assignHandles_lookup_isSome _ _ _ (mem_uniqueImages idj maps (List.getElem?_mem hj))
    obtain ⟨vi, hvi0⟩ := Option.isSome_iff_exists.1 hmi
    obtain ⟨vj, hvj0⟩ := Option.isSome_iff_exists.1 hmj
    have hgi2 : (alistLookup (material_map_to_image next maps) idi).getD 0 = hi2 :=
      Option.some.inj hgi
    have hgj2 : (alistLookup (material_map_to_image next maps) idj).getD 0 = hj2 :=
      Option.some.inj hgj
    rw [hvi0] at hgi2
    rw [hvj0] at hgj2
    have hvi2 : vi = hi2 := hgi2
    have hvj2 : vj = hj2 := hgj2
    rw [← hvi2, ← hvj2]
    exact assignHandles_lookup_inj _ next hcap idi idj vi vj hvi0 hvj0 hne
  · intro id h2 hl
    obtain ⟨j2, hj2, he⟩ := assignHandles_lookup_range _ next id h2 hl
    rw [he, Nat.mod_eq_of_lt (by omega)]
    omega

/-- Witness for `bindless_handle_uniqueness` at a registration with identity list
`[5, 3, 5]` and handle counter 7: identities 5 and 3 receive the distinct handles
8 and 7 (sorted-unique order `[3, 5]`). -/
theorem bindless_handle_uniqueness_witness :
    (mesh_map_gpu_ids 7 [5, 3, 5])[0]? = some 8 ∧
    (mesh_map_gpu_ids 7 [5, 3, 5])[1]? = some 7 ∧ (8 : Nat) ≠ 7 := by
  refine ⟨rfl, rfl, ?_⟩
  exact (bindless_handle_uniqueness 7 [5, 3, 5] 0 1 5 3 (by decide) rfl rfl).2.1
    (by omega) 8 7 rfl rfl

/-! ### Claim C7: mesh offset monotonicity -/

theorem alignUp_ge (x a : Nat) : x ≤ alignUp x a := by
  rw [alignUp]
  by_cases ha : a = 0
  · rw [if_pos ha]
  · rw [if_neg ha, Nat.mul_comm]
    have h1 := Nat.div_add_mod (x + a - 1) a
    have h2 : (x + a - 1) % a < a := Nat.mod_lt _ (by omega)
    omega

theorem buildChain_bounds (ps : List (Nat × Nat)) : ∀ b : Nat,
    (∀ p ∈ (buildChain b ps).1, b ≤ p.1 ∧ p.1 + p.2 ≤ (buildChain b ps).2) ∧
    b ≤ (buildChain b ps).2 := by
  induction ps with
  | nil =>
    intro b
    exact ⟨fun p hp => absurd hp (List.not_mem_nil p), Nat.le_refl b⟩
  | cons p0 rest ih =>
    intro b
    obtain ⟨al, sz⟩ := p0
    have hx := alignUp_ge b al
    obtain ⟨ihmem, ihle⟩ := ih (alignUp b al + sz)
    constructor
    · intro p hp
      simp only [buildChain] at hp
      rcases List.mem_cons.1 hp with he | hmem
      · subst he
        exact ⟨hx, by simp only [buildChain]; omega⟩
      · have := ihmem p hmem
        simp only [buildChain]
        exact ⟨by omega, this.2⟩
    · simp only [buildChain]
      omega

theorem packMesh_eq_buildChain (mesh : MeshAsset) :
    (buildChain 0 (meshStreams mesh)).1 =
      [((packMesh mesh).1.1, 4 * mesh.indices.length),
       ((packMesh mesh).1.2.1, mesh.verts_size),
       ((packMesh mesh).1.2.2.1, mesh.uvs_size),
       ((packMesh mesh).1.2.2.2.1, mesh.material_ids_size),
       ((packMesh mesh).1.2.2.2.2.1, mesh.colors_size),
       ((packMesh mesh).1.2.2.2.2.2.1, mesh.tangents_size),
       ((packMesh mesh).1.2.2.2.2.2.2, mesh.materials_size)] ∧
    (buildChain 0 (meshStreams mesh)).2 = (packMesh mesh).2 := by
  constructor <;> rfl

theorem add_mesh_spans (s : WorldRenderer) (mesh : MeshAsset) (h : MeshHandle)
    (rec : GpuMesh) (s2 : WorldRenderer)
    (hadd : s.add_mesh mesh = some (h, rec, s2)) :
    s2.vertex_buffer_written = s.vertex_buffer_written + (packMesh mesh).2 ∧
    s2.vertex_buffer_written ≤ VERTEX_BUFFER_CAPACITY ∧
    ∀ p ∈ recordSpans mesh rec,
      s.vertex_buffer_written ≤ p.1 ∧ p.1 + p.2 ≤ s2.vertex_buffer_written := by
  simp only [WorldRenderer.add_mesh] at hadd
  by_cases hmax : MAX_GPU_MESHES ≤ s.meshes.length
  · rw [if_pos hmax] at hadd; exact Option.noConfusion hadd
  rw [if_neg hmax] at hadd
  by_cases hemp : mesh.indices = []
  · rw [if_pos hemp] at hadd; exact Option.noConfusion hadd
  rw [if_neg hemp] at hadd
  by_cases hcap : VERTEX_BUFFER_CAPACITY < s.vertex_buffer_written + (packMesh mesh).2
  · rw [if_pos hcap] at hadd; exact Option.noConfusion hadd
  rw [if_neg hcap] at hadd
  rw [Nat.not_lt] at hcap
  have htup := Option.some.inj hadd
  injection htup with hA hBC
  injection hBC with hB hC
  subst hA
  subst hB
  subst hC
  have hwlt : s.vertex_buffer_written < U32_MOD := by
    have : VERTEX_BUFFER_CAPACITY < U32_MOD := by norm_num [VERTEX_BUFFER_CAPACITY, U32_MOD]
    omega
  have hwr : ((s.vertex_buffer_written + (packMesh mesh).2) % U64_MOD)
      = s.vertex_buffer_written + (packMesh mesh).2 := by
    have : VERTEX_BUFFER_CAPACITY < U64_MOD := by norm_num [VERTEX_BUFFER_CAPACITY, U64_MOD]
    exact Nat.mod_eq_of_lt (by omega)
  refine ⟨hwr, by rw [hwr]; exact hcap, ?_⟩
  obtain ⟨hcl, hct⟩ := packMesh_eq_buildChain mesh
  have hb := buildChain_bounds (meshStreams mesh) 0
  rw [hcl, hct] at hb
  have hoff : ∀ o z : Nat, o + z ≤ (packMesh mesh).2 →
      (o % U32_MOD + s.vertex_buffer_written % U32_MOD) % U32_MOD
        = o + s.vertex_buffer_written ∧
      s.vertex_buffer_written ≤ o + s.vertex_buffer_written ∧
      o + s.vertex_buffer_written + z
        ≤ (s.vertex_buffer_written + (packMesh mesh).2) % U64_MOD := by
    intro o z hoz
    have ho : o < U32_MOD := by
      have : VERTEX_BUFFER_CAPACITY < U32_MOD := by norm_num [VERTEX_BUFFER_CAPACITY, U32_MOD]
      omega
    have how : o + s.vertex_buffer_written < U32_MOD := by
      have : VERTEX_BUFFER_CAPACITY < U32_MOD := by norm_num [VERTEX_BUFFER_CAPACITY, U32_MOD]
      omega
    refine ⟨?_, Nat.le_add_left _ _, ?_⟩
    · rw [Nat.mod_eq_of_lt ho, Nat.mod_eq_of_lt hwlt, Nat.mod_eq_of_lt how]
    · rw [hwr]; omega
  intro p hp
  simp only [recordSpans, List.mem_cons, List.not_mem_nil, or_false] at hp
  rcases hp with he | he | he | he | he | he | he <;> subst he
  · have hm := hb.1 ((packMesh mesh).1.1, 4 * mesh.indices.length) (by simp)
    have := hoff (packMesh mesh).1.1 (4 * mesh.indices.length) hm.2
    exact ⟨this.2.1.trans_eq rfl |>.trans_eq (this.1.symm) |>.trans_eq rfl, by
      have h3 := this.2.2
      rw [this.1]
      exact h3⟩
  · have hm := hb.1 ((packMesh mesh).1.2.1, mesh.verts_size) (by simp)
    have := hoff (packMesh mesh).1.2.1 mesh.verts_size hm.2
    exact ⟨by rw [this.1]; exact this.2.1, by rw [this.1]; exact this.2.2⟩
  · have hm := hb.1 ((packMesh mesh).1.2.2.1, mesh.uvs_size) (by simp)
    have := hoff (packMesh mesh).1.2.2.1 mesh.uvs_size hm.2
    exact ⟨by rw [this.1]; exact this.2.1, by rw [this.1]; exact this.2.2⟩
  · have hm := hb.1 ((packMesh mesh).1.2.2.2.1, mesh.material_ids_size) (by simp)
    have := hoff (packMesh mesh).1.2.2.2.1 mesh.material_ids_size hm.2
    exact ⟨by rw [this.1]; exact this.2.1, by rw [this.1]; exact this.2.2⟩
  · have hm := hb.1 ((packMesh mesh).1.2.2.2.2.1, mesh.colors_size) (by simp)
    have := hoff (packMesh mesh).1.2.2.2.2.1 mesh.colors_size hm.2
    exact ⟨by rw [this.1]; exact this.2.1, by rw [this.1]; exact this.2.2⟩
  · have hm := hb.1 ((packMesh mesh).1.2.2.2.2.2.1, mesh.tangents_size) (by simp)
    have := hoff (packMesh mesh).1.2.2.2.2.2.1 mesh.tangents_size hm.2
    exact ⟨by rw [this.1]; exact this.2.1, by rw [this.1]; exact this.2.2⟩
  · have hm := hb.1 ((packMesh mesh).1.2.2.2.2.2.2, mesh.materials_size) (by simp)
    have := hoff (packMesh mesh).1.2.2.2.2.2.2 mesh.materials_size hm.2
    exact ⟨by rw [this.1]; exact this.2.1, by rw [this.1]; exact this.2.2⟩

theorem addMeshSeq_written_mono (L : List MeshAsset) : ∀ s s2 : WorldRenderer,
    addMeshSeq s L = some s2 →
    s.vertex_buffer_written ≤ s2.vertex_buffer_written := by
  induction L with
  | nil =>
    intro s s2 hrun
    rw [Option.some.inj hrun]
  | cons m rest ih =>
    intro s s2 hrun
    simp only [addMeshSeq] at hrun
    cases happ : s.add_mesh m with
    | none => rw [happ] at hrun; exact Option.noConfusion hrun
    | some r =>
      rw [happ] at hrun
      obtain ⟨hm, rec, smid⟩ := r
      have hsp := add_mesh_spans s m hm rec smid happ
      have h1 : s.vertex_buffer_written ≤ smid.vertex_buffer_written := by
        rw [hsp.1]; omega
      exact h1.trans (ih smid s2 hrun)

/-- C7: registering meshes in sequence never overlaps their byte ranges in the
shared buffer.  For a first mesh `A`, any number of intermediate registrations,
and a later mesh `B`: every packed-data span of `A` (offset, byte size) ends at or
before the running byte counter recorded after `A` — which advanced by exactly
`A`'s total packed size — the counter is monotone across the intermediate
registrations, every span of `B` begins at or after the counter before `B`; hence
every offset of `B` is at least every offset of `A` plus that stream's size, and
the byte ranges of `A` and `B` are disjoint. -/
theorem add_mesh_offsets_disjoint (s : WorldRenderer) (A B : MeshAsset)
    (mid : List MeshAsset) (h1 : MeshHandle) (rec1 : GpuMesh) (s1 : WorldRenderer)
    (h2 : MeshHandle) (rec2 : GpuMesh) (s3 : WorldRenderer) (s2 : WorldRenderer)
    (hA : s.add_mesh A = some (h1, rec1, s1))
    (hmid : addMeshSeq s1 mid = some s2)
    (hB : s2.add_mesh B = some (h2, rec2, s3)) :
    s1.vertex_buffer_written = s.vertex_buffer_written + (packMesh A).2 ∧
    (∀ p ∈ recordSpans A rec1,
      s.vertex_buffer_written ≤ p.1 ∧ p.1 + p.2 ≤ s1.vertex_buffer_written) ∧
    s1.vertex_buffer_written ≤ s2.vertex_buffer_written ∧
    (∀ q ∈ recordSpans B rec2,
      s2.vertex_buffer_written ≤ q.1 ∧ q.1 + q.2 ≤ s3.vertex_buffer_written) ∧
    (∀ p ∈ recordSpans A rec1, ∀ q ∈ recordSpans B rec2, p.1 + p.2 ≤ q.1) := by
  obtain ⟨hA1, _, hA3⟩ := add_mesh_spans s A h1 rec1 s1 hA
  obtain ⟨_, _, hB3⟩ := add_mesh_spans s2 B h2 rec2 s3 hB
  have hmono := addMeshSeq_written_mono mid s1 s2 hmid
  refine ⟨hA1, hA3, hmono, hB3, ?_⟩
  intro p hp q hq
  have h1b := (hA3 p hp).2
  have h2b := (hB3 q hq).1
  omega

/-- Witness for `add_mesh_offsets_disjoint`: registering `c7A` then `c7B` into the
fresh renderer, the last span of `c7A` (material data) ends at or before the
first offset of `c7B` (its index stream). -/
theorem add_mesh_offsets_disjoint_witness :
    c7rec1.mat_data_offset + c7A.materials_size ≤ c7rec2.index_offset := by
  have h := add_mesh_offsets_disjoint WorldRenderer.new_empty c7A c7B [] ⟨0⟩ c7rec1 c7s1
    ⟨1⟩ c7rec2 c7s2 c7s1 rfl rfl rfl
  exact h.2.2.2.2 (c7rec1.mat_data_offset, c7A.materials_size) (by simp [recordSpans])
    (c7rec2.index_offset, 4 * c7B.indices.length) (by simp [recordSpans])

end Kajiya
